import Mathlib

/-!
Shallow embedding of the session coordinator of `ptt-backend/src/services/websocket.js`
(class `WebSocketService`).  Connections (`ws` objects) are modelled as a pair of a
unique numeric handle and the identity attached to it at admission (`ws.user`); the
JavaScript `Map`s become association lists with `Map.set`/`Map.delete` semantics;
every outbound side effect (targeted send, broadcast, fire-and-forget stats call)
is recorded in an effect list.  The event loop (one inbound message, close event or
timer callback processed to completion at a time) is modelled by the `step` function
on the coordinator state, and `Reachable` is the set of states reachable from the
freshly constructed service.
-/

/-- A verified identity record (`{uid, name, email, picture}`). -/
structure User where
  uid : String
  name : String
  email : String
  picture : String
deriving DecidableEq

/-- A live transport connection: a unique handle (object identity of the `ws`
object) together with the identity stored on it as `ws.user`. -/
structure CWs where
  id : Nat
  user : User
deriving DecidableEq

/-- Outbound server-to-client message kinds (the `type`/`payload` envelopes built
by `websocket.js`). -/
inductive SrvMsg where
  | sessionStatus (active : Bool)
  | welcome (u : User) (serverIP : String)
  | speakerUpdate (speaker : Option User)
  | participantList (ps : List User)
  | requestQueueMsg (q : List User)
  | bannedListMsg (bs : List User)
  | speakGranted
  | requestAcknowledged
  | requestCancelled
  | requestRemoved
  | studentRequest (uid : String) (name : String) (email : String)
  | sysError (msg : String)
  | rtcOffer (sdp : String) (sender : String)
  | rtcAnswer (sdp : String)
  | rtcIce (candidate : String) (sender : Option String)
  | pong
deriving DecidableEq

/-- Observable side effects of one processing step: a targeted send (guarded by the
`readyState === OPEN` check in `send`), a broadcast to all open sockets, or one of
the fire-and-forget `statsService` notifications. -/
inductive Eff where
  | send (target : Nat) (m : SrvMsg)
  | broadcastAll (m : SrvMsg)
  | statsLog (kind : String) (uid : String)
  | statsAddUser (u : User)
  | statsStartOrResume (uid : String)
  | statsEndSession
  | statsLatency (uid : String) (rtt : Nat)
  | statsWebRTC (uid : String)
deriving DecidableEq

/-- Inbound client-to-server message kinds dispatched by `handleMessage`.
An `Option String` target models the truthiness test on `payload.targetUid`. -/
inductive ClientMsg where
  | registerAsHost
  | speakingStarted
  | requestToSpeak
  | cancelRequest
  | finishedSpeaking
  | releaseFloor
  | adminKickUser (uid : String)
  | adminRemoveRequest (uid : String)
  | adminToggleSession (active : Bool)
  | adminReleaseFloor
  | adminUnkickUser (uid : String)
  | adminGrantFloor (uid : String)
  | rtcOfferMsg (sdp : String)
  | rtcAnswerMsg (sdp : String) (targetUid : Option String)
  | rtcIceMsg (candidate : String) (targetUid : Option String)
  | ping
  | latencyUpdate (rtt : Nat)
  | webrtcStats
deriving DecidableEq

/-- The full mutable state of a `WebSocketService` instance, plus the bookkeeping
needed to express reachability (`used`, `admitted`, `discProcessed`) and the
shutdown policy (`shutdownPending`, `terminated`).
`clients` is `this.clients : Map<ws, uid>`, `openIds` is the set of connection
handles whose `readyState` is `OPEN`, `admitted` are the connections that got
`message`/`close` listeners attached in `handleConnection`, and `discProcessed`
are the connections whose `close` event has already been handled. -/
structure CoordState where
  serverIP : String
  used : List Nat
  admitted : List CWs
  discProcessed : List Nat
  openIds : List Nat
  clients : List (CWs × String)
  speaker : Option CWs
  requestQueue : List CWs
  speakQueue : List CWs
  hostWs : Option CWs
  isSessionActive : Bool
  bannedUids : List (String × User)
  lastSpeakTimeMap : List (String × Nat)
  shutdownPending : Bool
  terminated : Bool
deriving DecidableEq

/-- `Map.set` on an association list: replace in place if the key is present
(JavaScript `Map.set` keeps the original insertion position), append otherwise. -/
def mapSet {α β : Type} [DecidableEq α] (m : List (α × β)) (k : α) (v : β) :
    List (α × β) :=
  if k ∈ m.map Prod.fst then
    m.map (fun p => if p.1 = k then (k, v) else p)
  else m ++ [(k, v)]

/-- `Map.delete` on an association list. -/
def mapDelete {α β : Type} [DecidableEq α] (m : List (α × β)) (k : α) :
    List (α × β) :=
  m.filter (fun p => decide (p.1 ≠ k))

/-- `Map.get` / `Map.has` on an association list. -/
def mapLookup {α β : Type} [DecidableEq α] (m : List (α × β)) (k : α) : Option β :=
  match m with
  | [] => none
  | p :: rest => if p.1 = k then some p.2 else mapLookup rest k

/-- `String.endsWith`, computed on the underlying character lists. -/
def strEndsWith (s suffix : String) : Bool :=
  decide (s.data.reverse.take suffix.data.length = suffix.data.reverse)

/-- The host/participant classifier of `handleConnection`: a `@um.edu.my` or
`@gmail.com` email marks a lecturer. -/
def isLecturerEmail (email : String) : Bool :=
  strEndsWith email "@um.edu.my" || strEndsWith email "@gmail.com"

/-- `send(ws, data)`: emits the message only when the target is still open. -/
def sendE (s : CoordState) (ws : CWs) (m : SrvMsg) : List Eff :=
  if ws.id ∈ s.openIds then [Eff.send ws.id m] else []

/-- `findClientByUid`: first registry entry with a matching uid whose connection
is still open. -/
def findClientByUid (s : CoordState) (uid : String) : Option CWs :=
  (s.clients.find? (fun p => decide (p.2 = uid) && decide (p.1.id ∈ s.openIds))).map
    Prod.fst

/-- `broadcastSpeakerUpdate`. -/
def broadcastSpeakerUpdate (s : CoordState) : List Eff :=
  [Eff.broadcastAll (SrvMsg.speakerUpdate (s.speaker.map CWs.user))]

/-- The participant list projected for the host (all registered connections other
than the host connection itself). -/
def participantsView (s : CoordState) : List User :=
  (s.clients.filter (fun p => decide (s.hostWs ≠ some p.1))).map (fun p => p.1.user)

/-- `broadcastParticipantList` (a targeted send to the host, nothing without one). -/
def broadcastParticipantList (s : CoordState) : List Eff :=
  match s.hostWs with
  | none => []
  | some h => sendE s h (SrvMsg.participantList (participantsView s))

/-- `broadcastRequestQueue` (a targeted send to the host, nothing without one). -/
def broadcastRequestQueue (s : CoordState) : List Eff :=
  match s.hostWs with
  | none => []
  | some h => sendE s h (SrvMsg.requestQueueMsg (s.requestQueue.map CWs.user))

/-- `broadcastBannedList` (a targeted send to the host, nothing without one). -/
def broadcastBannedList (s : CoordState) : List Eff :=
  match s.hostWs with
  | none => []
  | some h => sendE s h (SrvMsg.bannedListMsg (s.bannedUids.map Prod.snd))

/-- `handleConnection(ws, user)`: ban check, duplicate-uid eviction, single-lecturer
constraint, then registration, the initial snapshot sends, the participant-list
update, the (host-handle-guarded) request-queue resend, and the stats join event. -/
def handleConnection (s : CoordState) (ws : CWs) : CoordState × List Eff :=
  if (mapLookup s.bannedUids ws.user.uid).isSome then
    ({ s with openIds := s.openIds.erase ws.id },
      sendE s ws (SrvMsg.sysError "You have been kicked from this session."))
  else
    let s1 :=
      match findClientByUid s ws.user.uid with
      | some oldC =>
          { s with openIds := s.openIds.erase oldC.id,
                   clients := mapDelete s.clients oldC }
      | none => s
    let isLect := isLecturerEmail ws.user.email
    if isLect && s1.clients.any (fun p => isLecturerEmail p.1.user.email) then
      ({ s1 with openIds := s1.openIds.erase ws.id },
        sendE s1 ws (SrvMsg.sysError
          "A lecturer is already in the session. Only one lecturer is allowed."))
    else
      let s2 := { s1 with clients := mapSet s1.clients ws ws.user.uid,
                          admitted := ws :: s1.admitted }
      (s2,
        sendE s2 ws (SrvMsg.sessionStatus s2.isSessionActive)
        ++ sendE s2 ws (SrvMsg.welcome ws.user s2.serverIP)
        ++ sendE s2 ws (SrvMsg.speakerUpdate (s2.speaker.map CWs.user))
        ++ broadcastParticipantList s2
        ++ (if s2.hostWs = some ws then broadcastRequestQueue s2 else [])
        ++ (if isLect then [] else [Eff.statsAddUser ws.user]))

/-- `handleDisconnect(ws)`: host branch (session deactivation, stats end, shutdown
timer arming), registry removal, auto floor release, queue removal, speak-queue
filtering and the final participant-list update. -/
def handleDisconnect (s : CoordState) (ws : CWs) (now : Nat) :
    CoordState × List Eff :=
  let hostCase :=
    if s.hostWs = some ws then
      ({ s with hostWs := none, isSessionActive := false, shutdownPending := true },
        [Eff.broadcastAll (SrvMsg.sessionStatus false), Eff.statsEndSession])
    else (s, ([] : List Eff))
  let sA := hostCase.1
  let sB := { sA with clients := mapDelete sA.clients ws }
  let spkCase :=
    if sB.speaker = some ws then
      let sC0 := { sB with
        lastSpeakTimeMap := mapSet sB.lastSpeakTimeMap ws.user.uid now,
        speaker := none }
      (sC0, broadcastSpeakerUpdate sC0)
    else (sB, ([] : List Eff))
  let sC := spkCase.1
  let queueCase :=
    if ws ∈ sC.requestQueue then
      let sD0 := { sC with
        requestQueue := sC.requestQueue.filter (fun c => decide (c ≠ ws)) }
      (sD0, broadcastRequestQueue sD0)
    else (sC, ([] : List Eff))
  let sD := queueCase.1
  let sE := { sD with speakQueue := sD.speakQueue.filter (fun c => decide (c ≠ ws)) }
  (sE, hostCase.2 ++ spkCase.2 ++ queueCase.2 ++ broadcastParticipantList sE)

/-- `grantMic(ws)`: take the speaker slot, drop the grantee from the request queue
if present, send the grant, log it, broadcast the speaker update. -/
def grantMic (s : CoordState) (ws : CWs) : CoordState × List Eff :=
  let s1 := { s with speaker := some ws }
  let queueCase :=
    if ws ∈ s1.requestQueue then
      let s2a := { s1 with
        requestQueue := s1.requestQueue.filter (fun c => decide (c ≠ ws)) }
      (s2a, broadcastRequestQueue s2a)
    else (s1, ([] : List Eff))
  let s2 := queueCase.1
  (s2, queueCase.2 ++ sendE s2 ws SrvMsg.speakGranted
    ++ [Eff.statsLog "SPEAK_GRANTED" ws.user.uid] ++ broadcastSpeakerUpdate s2)

/-- `handleRequestToSpeak(ws)`: error without a host, grant when idle, re-ack when
already the speaker, otherwise queue (idempotently) and notify the host. -/
def handleRequestToSpeak (s : CoordState) (ws : CWs) : CoordState × List Eff :=
  match s.hostWs with
  | none => (s, sendE s ws (SrvMsg.sysError "Lecturer disconnected."))
  | some _ =>
    if s.speaker = none then grantMic s ws
    else if s.speaker = some ws then
      (s, sendE s ws SrvMsg.speakGranted ++ [Eff.statsLog "SPEAK_PULSE" ws.user.uid])
    else
      let queueCase :=
        if ws ∈ s.requestQueue then (s, ([] : List Eff))
        else
          let s1a := { s with requestQueue := s.requestQueue ++ [ws] }
          (s1a, broadcastRequestQueue s1a ++ sendE s1a ws SrvMsg.requestAcknowledged)
      let s1 := queueCase.1
      (s1, queueCase.2
        ++ (match s1.hostWs with
            | some h => sendE s1 h
                (SrvMsg.studentRequest ws.user.uid ws.user.name ws.user.email)
            | none => []))

/-- `handleCancelRequest(ws)`. -/
def handleCancelRequest (s : CoordState) (ws : CWs) : CoordState × List Eff :=
  if ws ∈ s.requestQueue then
    let s1 := { s with
      requestQueue := s.requestQueue.filter (fun c => decide (c ≠ ws)) }
    (s1, broadcastRequestQueue s1 ++ sendE s1 ws SrvMsg.requestCancelled)
  else (s, [])

/-- `handleAdminRemoveRequest(uid)`: remove by connection when the uid resolves,
otherwise clean the queue up by uid match. -/
def handleAdminRemoveRequest (s : CoordState) (uid : String) :
    CoordState × List Eff :=
  match findClientByUid s uid with
  | some c =>
    let s1 := { s with requestQueue := s.requestQueue.filter (fun x => decide (x ≠ c)) }
    (s1, broadcastRequestQueue s1 ++ sendE s1 c SrvMsg.requestRemoved)
  | none =>
    let s1 := { s with
      requestQueue := s.requestQueue.filter (fun x => decide (x.user.uid ≠ uid)) }
    (s1, broadcastRequestQueue s1)

/-- `handleReleaseFloor(ws)`: only the current speaker releases; records the
cooldown timestamp, logs, clears the slot, broadcasts. -/
def handleReleaseFloor (s : CoordState) (ws : CWs) (now : Nat) :
    CoordState × List Eff :=
  if s.speaker = some ws then
    let s1 := { s with
      lastSpeakTimeMap := mapSet s.lastSpeakTimeMap ws.user.uid now,
      speaker := none }
    (s1, [Eff.statsLog "FLOOR_RELEASED" ws.user.uid] ++ broadcastSpeakerUpdate s1)
  else (s, [])

/-- `handleFinishedSpeaking(ws)`: explicitly does NOT release the floor; logs a
stats event when the sender is the current speaker. -/
def handleFinishedSpeaking (s : CoordState) (ws : CWs) : CoordState × List Eff :=
  if s.speaker = some ws then (s, [Eff.statsLog "SPEAK_FINISHED" ws.user.uid])
  else (s, [])

/-- `handleAdminKick(targetUid)`: record the ban, broadcast the banned list, then
notify, clear the speaker slot when the target was speaking, and close the target.
The registry entry and any request-queue entry of the target are NOT touched here;
they are only cleaned up when the target connection's close event is handled. -/
def handleAdminKick (s : CoordState) (targetUid : String) : CoordState × List Eff :=
  let target := findClientByUid s targetUid
  let s1 :=
    match target with
    | some t => { s with bannedUids := mapSet s.bannedUids targetUid t.user }
    | none => s
  let effs1 := broadcastBannedList s1
  match target with
  | some t =>
    let effs2 := sendE s1 t (SrvMsg.sysError "You have been kicked by the lecturer.")
    let spkCase :=
      if s1.speaker = some t then
        let s2a := { s1 with speaker := none }
        (s2a, broadcastSpeakerUpdate s2a)
      else (s1, ([] : List Eff))
    let s2 := spkCase.1
    ({ s2 with openIds := s2.openIds.erase t.id }, effs1 ++ effs2 ++ spkCase.2)
  | none => (s1, effs1)

/-- `handleMessage(ws, message)`: the message dispatcher. `now` is the value
`Date.now()` returns during this processing step. -/
def handleMessage (s : CoordState) (ws : CWs) (now : Nat) (m : ClientMsg) :
    CoordState × List Eff :=
  match m with
  | ClientMsg.registerAsHost =>
    let s1 := { s with shutdownPending := false, hostWs := some ws,
                       isSessionActive := true }
    let statsEffs : List Eff :=
      if ws.user.uid = "" then []
      else
        Eff.statsStartOrResume ws.user.uid ::
          (s1.clients.filter
            (fun p => decide (p.1 ≠ ws) && !isLecturerEmail p.1.user.email)).map
            (fun p => Eff.statsAddUser p.1.user)
    (s1, statsEffs ++ [Eff.broadcastAll (SrvMsg.sessionStatus true)]
      ++ broadcastParticipantList s1 ++ broadcastRequestQueue s1)
  | ClientMsg.speakingStarted =>
    (s, if s.speaker = some ws then [Eff.statsLog "SPEAK_PULSE" ws.user.uid] else [])
  | ClientMsg.requestToSpeak =>
    if s.isSessionActive then
      let r := handleRequestToSpeak s ws
      (r.1, Eff.statsLog "REQUEST_TO_SPEAK" ws.user.uid :: r.2)
    else (s, [])
  | ClientMsg.cancelRequest => handleCancelRequest s ws
  | ClientMsg.finishedSpeaking => handleFinishedSpeaking s ws
  | ClientMsg.releaseFloor => handleReleaseFloor s ws now
  | ClientMsg.adminKickUser uid =>
    if s.hostWs = some ws then handleAdminKick s uid else (s, [])
  | ClientMsg.adminRemoveRequest uid =>
    if s.hostWs = some ws then handleAdminRemoveRequest s uid else (s, [])
  | ClientMsg.adminToggleSession b =>
    if s.hostWs = some ws then
      ({ s with isSessionActive := b }, [Eff.broadcastAll (SrvMsg.sessionStatus b)])
    else (s, [])
  | ClientMsg.adminReleaseFloor =>
    if s.hostWs = some ws then
      let s1 :=
        match s.speaker with
        | some sp => { s with
            lastSpeakTimeMap := mapSet s.lastSpeakTimeMap sp.user.uid now,
            speaker := none }
        | none => { s with speaker := none }
      (s1, broadcastSpeakerUpdate s1)
    else (s, [])
  | ClientMsg.adminUnkickUser uid =>
    if s.hostWs = some ws then
      if (mapLookup s.bannedUids uid).isSome then
        let s1 := { s with bannedUids := mapDelete s.bannedUids uid }
        (s1, broadcastBannedList s1)
      else (s, [])
    else (s, [])
  | ClientMsg.adminGrantFloor uid =>
    if s.hostWs = some ws then
      match findClientByUid s uid with
      | some t =>
        let s1 := { s with speaker := some t }
        (s1, sendE s1 t SrvMsg.speakGranted ++ broadcastSpeakerUpdate s1)
      | none => (s, [])
    else (s, [])
  | ClientMsg.rtcOfferMsg sdp =>
    (s, match s.hostWs with
        | some h => sendE s h (SrvMsg.rtcOffer sdp ws.user.uid)
        | none => [])
  | ClientMsg.rtcAnswerMsg sdp tgt =>
    (s, if s.hostWs = some ws then
          match tgt with
          | some tu =>
            (match findClientByUid s tu with
             | some t => sendE s t (SrvMsg.rtcAnswer sdp)
             | none => [])
          | none => []
        else [])
  | ClientMsg.rtcIceMsg cand tgt =>
    (s, match tgt with
        | some tu =>
          if s.hostWs = some ws then
            (match findClientByUid s tu with
             | some t => sendE s t (SrvMsg.rtcIce cand none)
             | none => [])
          else
            (match s.hostWs with
             | some h => sendE s h (SrvMsg.rtcIce cand (some ws.user.uid))
             | none => [])
        | none =>
          match s.hostWs with
          | some h => sendE s h (SrvMsg.rtcIce cand (some ws.user.uid))
          | none => [])
  | ClientMsg.ping => (s, sendE s ws SrvMsg.pong)
  | ClientMsg.latencyUpdate rtt =>
    (s, if ws.user.uid = "" then [] else [Eff.statsLatency ws.user.uid rtt])
  | ClientMsg.webrtcStats =>
    (s, if ws.user.uid = "" then [] else [Eff.statsWebRTC ws.user.uid])

/-- The events the serialized processing loop delivers: a newly accepted (and
authenticated) transport connection, an inbound message on an admitted open
connection, a close event, and the shutdown grace timer callback. -/
inductive Ev where
  | connect (ws : CWs)
  | msg (ws : CWs) (now : Nat) (m : ClientMsg)
  | closeEv (ws : CWs) (now : Nat)
  | timerFire (now : Nat)
deriving DecidableEq

/-- One transition of the coordinator: `none` when the event cannot occur in this
state (stale handle, listener never attached, duplicate close delivery, cleared
timer, or a terminated process). Messages are delivered only on open connections
whose listeners were attached at admission and whose close event has not yet been
processed; a connect event uses a fresh transport handle. -/
def step (s : CoordState) (e : Ev) : Option (CoordState × List Eff) :=
  if s.terminated then none
  else
    match e with
    | Ev.connect ws =>
      if ws.id ∈ s.used then none
      else some (handleConnection
        { s with used := ws.id :: s.used, openIds := ws.id :: s.openIds } ws)
    | Ev.msg ws now m =>
      if ws ∈ s.admitted ∧ ws.id ∈ s.openIds ∧ ws.id ∉ s.discProcessed then
        some (handleMessage s ws now m)
      else none
    | Ev.closeEv ws now =>
      if ws ∈ s.admitted ∧ ws.id ∉ s.discProcessed then
        some (handleDisconnect
          { s with openIds := s.openIds.erase ws.id,
                   discProcessed := ws.id :: s.discProcessed } ws now)
      else none
    | Ev.timerFire _ =>
      if s.shutdownPending then
        some ({ s with shutdownPending := false, terminated := true }, [])
      else none

/-- The state of a freshly constructed `WebSocketService`. -/
def initState : CoordState :=
  { serverIP := "", used := [], admitted := [], discProcessed := [], openIds := [],
    clients := [], speaker := none, requestQueue := [], speakQueue := [],
    hostWs := none, isSessionActive := false, bannedUids := [],
    lastSpeakTimeMap := [], shutdownPending := false, terminated := false }

/-- Run a list of events, failing if any event is not enabled. -/
def run : CoordState → List Ev → Option CoordState
  | s, [] => some s
  | s, e :: es =>
    match step s e with
    | some p => run p.1 es
    | none => none

/-- States of the coordinator reachable from the freshly constructed service. -/
inductive Reachable : CoordState → Prop where
  | init : Reachable initState
  | next : ∀ {s : CoordState} {e : Ev} {p : CoordState × List Eff},
      Reachable s → step s e = some p → Reachable p.1

theorem reachable_of_run {s s' : CoordState} {evs : List Ev}
    (h : Reachable s) (hr : run s evs = some s') : Reachable s' := by
  induction evs generalizing s with
  | nil =>
    rw [run] at hr
    cases hr
    exact h
  | cons e es ih =>
    rw [run] at hr
    rcases hp : step s e with _ | p
    · rw [hp] at hr; exact absurd hr (by simp)
    · rw [hp] at hr
      exact ih (Reachable.next h hp) hr

/-! ### Association-list lemmas -/

theorem mapLookup_replace {α β : Type} [DecidableEq α]
    (m : List (α × β)) (k : α) (v : β) (hk : k ∈ m.map Prod.fst) :
    mapLookup (m.map (fun p => if p.1 = k then (k, v) else p)) k = some v := by
  induction m with
  | nil => simp at hk
  | cons p rest ih =>
    by_cases hp : p.1 = k
    · simp [mapLookup, hp]
    · have hk2 : k ∈ rest.map Prod.fst := by
        rcases List.mem_cons.mp (show k ∈ p.1 :: rest.map Prod.fst by simpa using hk)
          with h | h
        · exact absurd h.symm hp
        · exact h
      simp only [List.map_cons, if_neg hp, mapLookup]
      exact ih hk2

theorem mapLookup_append_fresh {α β : Type} [DecidableEq α]
    (m : List (α × β)) (k : α) (v : β) (hk : k ∉ m.map Prod.fst) :
    mapLookup (m ++ [(k, v)]) k = some v := by
  induction m with
  | nil => simp [mapLookup]
  | cons p rest ih =>
    have hp : ¬(p.1 = k) := fun h => hk (by simp [h])
    simp only [List.cons_append, mapLookup]
    rw [if_neg hp]
    exact ih (fun h => hk (by simp [List.mem_cons]; right; simpa using h))

theorem mapLookup_mapSet_self {α β : Type} [DecidableEq α]
    (m : List (α × β)) (k : α) (v : β) :
    mapLookup (mapSet m k v) k = some v := by
  unfold mapSet
  split
  · exact mapLookup_replace m k v (by assumption)
  · exact mapLookup_append_fresh m k v (by assumption)

theorem mem_keys_mapSet {α β : Type} [DecidableEq α]
    {m : List (α × β)} {k a : α} {v : β}
    (h : a ∈ (mapSet m k v).map Prod.fst) : a = k ∨ a ∈ m.map Prod.fst := by
  unfold mapSet at h
  split at h
  · simp only [List.map_map, List.mem_map] at h
    rcases h with ⟨p, hp, ha⟩
    by_cases hpk : p.1 = k
    · left
      simp only [Function.comp, if_pos hpk] at ha
      exact ha.symm
    · right
      simp only [Function.comp, if_neg hpk] at ha
      rw [← ha]
      exact List.mem_map_of_mem Prod.fst hp
  · simp only [List.map_append, List.mem_append, List.map_cons, List.map_nil,
      List.mem_singleton] at h
    rcases h with h | h
    · right; exact h
    · left; exact h

theorem mem_keys_mapDelete {α β : Type} [DecidableEq α]
    {m : List (α × β)} {k a : α}
    (h : a ∈ (mapDelete m k).map Prod.fst) : a ∈ m.map Prod.fst := by
  unfold mapDelete at h
  simp only [List.mem_map] at h ⊢
  rcases h with ⟨p, hp, ha⟩
  exact ⟨p, (List.mem_filter.mp hp).1, ha⟩

theorem not_mem_keys_mapDelete {α β : Type} [DecidableEq α]
    (m : List (α × β)) (k : α) : k ∉ (mapDelete m k).map Prod.fst := by
  unfold mapDelete
  simp only [List.mem_map, not_exists, not_and]
  intro p hp
  have h2 := (List.mem_filter.mp hp).2
  intro hk
  rw [hk] at h2
  simp at h2

theorem findClientByUid_mem {s : CoordState} {uid : String} {c : CWs}
    (h : findClientByUid s uid = some c) : c ∈ s.clients.map Prod.fst := by
  unfold findClientByUid at h
  rcases hf : s.clients.find? (fun p => decide (p.2 = uid) && decide (p.1.id ∈ s.openIds))
    with _ | p
  · rw [hf] at h; simp at h
  · rw [hf] at h
    have hpc : p.1 = c := by simpa using h
    rw [← hpc]
    exact List.mem_map_of_mem Prod.fst (List.mem_of_find?_eq_some hf)

/-! ### Frame lemmas for the handlers -/

theorem handleMessage_used (s : CoordState) (ws : CWs) (now : Nat) (m : ClientMsg) :
    (handleMessage s ws now m).1.used = s.used := by
  cases m <;>
    simp only [handleMessage, handleCancelRequest, handleFinishedSpeaking,
      handleReleaseFloor, handleAdminKick, handleAdminRemoveRequest,
      handleRequestToSpeak, grantMic] <;>
    (repeat' split) <;> rfl

theorem handleMessage_admitted (s : CoordState) (ws : CWs) (now : Nat)
    (m : ClientMsg) : (handleMessage s ws now m).1.admitted = s.admitted := by
  cases m <;>
    simp only [handleMessage, handleCancelRequest, handleFinishedSpeaking,
      handleReleaseFloor, handleAdminKick, handleAdminRemoveRequest,
      handleRequestToSpeak, grantMic] <;>
    (repeat' split) <;> rfl

theorem handleMessage_discProcessed (s : CoordState) (ws : CWs) (now : Nat)
    (m : ClientMsg) :
    (handleMessage s ws now m).1.discProcessed = s.discProcessed := by
  cases m <;>
    simp only [handleMessage, handleCancelRequest, handleFinishedSpeaking,
      handleReleaseFloor, handleAdminKick, handleAdminRemoveRequest,
      handleRequestToSpeak, grantMic] <;>
    (repeat' split) <;> rfl

theorem handleMessage_clients (s : CoordState) (ws : CWs) (now : Nat)
    (m : ClientMsg) : (handleMessage s ws now m).1.clients = s.clients := by
  cases m <;>
    simp only [handleMessage, handleCancelRequest, handleFinishedSpeaking,
      handleReleaseFloor, handleAdminKick, handleAdminRemoveRequest,
      handleRequestToSpeak, grantMic] <;>
    (repeat' split) <;> rfl

theorem handleMessage_terminated (s : CoordState) (ws : CWs) (now : Nat)
    (m : ClientMsg) : (handleMessage s ws now m).1.terminated = s.terminated := by
  cases m <;>
    simp only [handleMessage, handleCancelRequest, handleFinishedSpeaking,
      handleReleaseFloor, handleAdminKick, handleAdminRemoveRequest,
      handleRequestToSpeak, grantMic] <;>
    (repeat' split) <;> rfl

theorem handleMessage_pending (s : CoordState) (ws : CWs) (now : Nat)
    (m : ClientMsg) (hm : m ≠ ClientMsg.registerAsHost) :
    (handleMessage s ws now m).1.shutdownPending = s.shutdownPending := by
  cases m <;>
    first
    | exact absurd rfl hm
    | (simp only [handleMessage, handleCancelRequest, handleFinishedSpeaking,
        handleReleaseFloor, handleAdminKick, handleAdminRemoveRequest,
        handleRequestToSpeak, grantMic] <;>
      (repeat' split) <;> rfl)

theorem handleMessage_hostWs (s : CoordState) (ws : CWs) (now : Nat)
    (m : ClientMsg) (hm : m ≠ ClientMsg.registerAsHost) :
    (handleMessage s ws now m).1.hostWs = s.hostWs := by
  cases m <;>
    first
    | exact absurd rfl hm
    | (simp only [handleMessage, handleCancelRequest, handleFinishedSpeaking,
        handleReleaseFloor, handleAdminKick, handleAdminRemoveRequest,
        handleRequestToSpeak, grantMic] <;>
      (repeat' split) <;> rfl)

theorem handleConnection_speaker (s : CoordState) (ws : CWs) :
    (handleConnection s ws).1.speaker = s.speaker := by
  simp only [handleConnection] <;> (repeat' split) <;> rfl

theorem handleConnection_requestQueue (s : CoordState) (ws : CWs) :
    (handleConnection s ws).1.requestQueue = s.requestQueue := by
  simp only [handleConnection] <;> (repeat' split) <;> rfl

theorem handleConnection_hostWs (s : CoordState) (ws : CWs) :
    (handleConnection s ws).1.hostWs = s.hostWs := by
  simp only [handleConnection] <;> (repeat' split) <;> rfl

theorem handleConnection_active (s : CoordState) (ws : CWs) :
    (handleConnection s ws).1.isSessionActive = s.isSessionActive := by
  simp only [handleConnection] <;> (repeat' split) <;> rfl

theorem handleConnection_used (s : CoordState) (ws : CWs) :
    (handleConnection s ws).1.used = s.used := by
  simp only [handleConnection] <;> (repeat' split) <;> rfl

theorem handleConnection_pending (s : CoordState) (ws : CWs) :
    (handleConnection s ws).1.shutdownPending = s.shutdownPending := by
  simp only [handleConnection] <;> (repeat' split) <;> rfl

theorem handleConnection_terminated (s : CoordState) (ws : CWs) :
    (handleConnection s ws).1.terminated = s.terminated := by
  simp only [handleConnection] <;> (repeat' split) <;> rfl

theorem handleConnection_admitted (s : CoordState) (ws : CWs) :
    (handleConnection s ws).1.admitted = s.admitted ∨
      (handleConnection s ws).1.admitted = ws :: s.admitted := by
  simp only [handleConnection] <;> (repeat' split) <;> simp

theorem handleConnection_clients_sub (s : CoordState) (ws : CWs) :
    ∀ q ∈ (handleConnection s ws).1.clients,
      q.1 = ws ∨ q.1 ∈ s.clients.map Prod.fst := by
  intro q hq
  simp only [handleConnection] at hq
  (repeat' split at hq) <;>
    first
    | exact Or.inr (List.mem_map_of_mem Prod.fst hq)
    | exact Or.inr (mem_keys_mapDelete (List.mem_map_of_mem Prod.fst hq))
    | exact (mem_keys_mapSet (List.mem_map_of_mem Prod.fst hq)).imp
        (fun h => h) (fun h => mem_keys_mapDelete h)
    | exact (mem_keys_mapSet (List.mem_map_of_mem Prod.fst hq)).imp
        (fun h => h) (fun h => h)

theorem handleDisconnect_used (s : CoordState) (ws : CWs) (now : Nat) :
    (handleDisconnect s ws now).1.used = s.used := by
  simp only [handleDisconnect] <;> (repeat' split) <;> rfl

theorem handleDisconnect_admitted (s : CoordState) (ws : CWs) (now : Nat) :
    (handleDisconnect s ws now).1.admitted = s.admitted := by
  simp only [handleDisconnect] <;> (repeat' split) <;> rfl

theorem handleDisconnect_terminated (s : CoordState) (ws : CWs) (now : Nat) :
    (handleDisconnect s ws now).1.terminated = s.terminated := by
  simp only [handleDisconnect] <;> (repeat' split) <;> rfl

theorem handleDisconnect_discProcessed (s : CoordState) (ws : CWs) (now : Nat) :
    (handleDisconnect s ws now).1.discProcessed = s.discProcessed := by
  simp only [handleDisconnect] <;> (repeat' split) <;> rfl

theorem handleDisconnect_clients (s : CoordState) (ws : CWs) (now : Nat) :
    (handleDisconnect s ws now).1.clients = mapDelete s.clients ws := by
  simp only [handleDisconnect] <;> (repeat' split) <;> rfl

theorem handleDisconnect_hostWs (s : CoordState) (ws : CWs) (now : Nat) :
    (handleDisconnect s ws now).1.hostWs =
      (if s.hostWs = some ws then none else s.hostWs) := by
  simp only [handleDisconnect] <;> (repeat' split) <;> simp_all

theorem handleDisconnect_active (s : CoordState) (ws : CWs) (now : Nat) :
    (handleDisconnect s ws now).1.isSessionActive =
      (if s.hostWs = some ws then false else s.isSessionActive) := by
  simp only [handleDisconnect] <;> (repeat' split) <;> simp_all

theorem handleDisconnect_pending (s : CoordState) (ws : CWs) (now : Nat) :
    (handleDisconnect s ws now).1.shutdownPending =
      (if s.hostWs = some ws then true else s.shutdownPending) := by
  simp only [handleDisconnect] <;> (repeat' split) <;> simp_all

theorem handleDisconnect_speaker (s : CoordState) (ws : CWs) (now : Nat) :
    (handleDisconnect s ws now).1.speaker =
      (if s.speaker = some ws then none else s.speaker) := by
  simp only [handleDisconnect] <;> (repeat' split) <;> simp_all

theorem handleDisconnect_cooldown (s : CoordState) (ws : CWs) (now : Nat) :
    (handleDisconnect s ws now).1.lastSpeakTimeMap =
      (if s.speaker = some ws
       then mapSet s.lastSpeakTimeMap ws.user.uid now
       else s.lastSpeakTimeMap) := by
  simp only [handleDisconnect] <;> (repeat' split) <;> simp_all

theorem handleDisconnect_release (s : CoordState) (ws : CWs) (now : Nat)
    (hspk : s.speaker = some ws) :
    (handleDisconnect s ws now).1.speaker = none ∧
    mapLookup (handleDisconnect s ws now).1.lastSpeakTimeMap ws.user.uid =
      some now := by
  rw [handleDisconnect_speaker, handleDisconnect_cooldown]
  simp only [if_pos hspk]
  exact ⟨by simp, mapLookup_mapSet_self _ _ _⟩

theorem handleMessage_active_other (s : CoordState) (ws : CWs) (now : Nat)
    (m : ClientMsg) (h1 : m ≠ ClientMsg.registerAsHost)
    (h2 : ∀ b, m ≠ ClientMsg.adminToggleSession b) :
    (handleMessage s ws now m).1.isSessionActive = s.isSessionActive := by
  cases m <;>
    first
    | exact absurd rfl h1
    | exact absurd rfl (h2 _)
    | (simp only [handleMessage, handleCancelRequest, handleFinishedSpeaking,
        handleReleaseFloor, handleAdminKick, handleAdminRemoveRequest,
        handleRequestToSpeak, grantMic] <;>
      (repeat' split) <;> rfl)

theorem handleMessage_hostUsed (s : CoordState) (ws : CWs) (now : Nat)
    (m : ClientMsg) (hws : ws.id ∈ s.used)
    (hhost : ∀ h, s.hostWs = some h → h.id ∈ s.used) :
    ∀ h, (handleMessage s ws now m).1.hostWs = some h → h.id ∈ s.used := by
  intro h hh
  by_cases hm : m = ClientMsg.registerAsHost
  · subst hm
    have hws2 : (handleMessage s ws now ClientMsg.registerAsHost).1.hostWs = some ws := by
      simp [handleMessage]
    rw [hws2] at hh
    cases hh
    exact hws
  · rw [handleMessage_hostWs s ws now m hm] at hh
    exact hhost h hh

theorem handleMessage_active_inv (s : CoordState) (ws : CWs) (now : Nat)
    (m : ClientMsg)
    (hact : s.isSessionActive = true → s.hostWs.isSome = true) :
    (handleMessage s ws now m).1.isSessionActive = true →
      (handleMessage s ws now m).1.hostWs.isSome = true := by
  intro ha
  by_cases hm : m = ClientMsg.registerAsHost
  · subst hm; simp [handleMessage]
  · by_cases ht : ∃ b, m = ClientMsg.adminToggleSession b
    · rcases ht with ⟨b, rfl⟩
      simp only [handleMessage] at ha ⊢
      by_cases hg : s.hostWs = some ws
      · rw [if_pos hg] at ha ⊢
        simp [hg]
      · rw [if_neg hg] at ha ⊢
        exact hact ha
    · have h2 : ∀ b, m ≠ ClientMsg.adminToggleSession b := fun b hb => ht ⟨b, hb⟩
      rw [handleMessage_active_other s ws now m hm h2] at ha
      rw [handleMessage_hostWs s ws now m hm]
      exact hact ha

/-- Structural invariant of reachable coordinator states: every admitted
connection, the host connection and every registry key carry a transport handle
that the server has accepted before, and an active session always has a
(possibly stale) host connection recorded. -/
def InvGood (s : CoordState) : Prop :=
  (∀ w ∈ s.admitted, w.id ∈ s.used) ∧
  (∀ h, s.hostWs = some h → h.id ∈ s.used) ∧
  (∀ q ∈ s.clients, q.1.id ∈ s.used) ∧
  (s.isSessionActive = true → s.hostWs.isSome = true)

theorem inv_step {s : CoordState} {e : Ev} {p : CoordState × List Eff}
    (hi : InvGood s) (hs : step s e = some p) : InvGood p.1 := by
  obtain ⟨h1, h2, h3, h4⟩ := hi
  cases e with
  | connect ws =>
    simp only [step] at hs
    split at hs
    · simp at hs
    · split at hs
      · simp at hs
      · have hp := (Option.some.inj hs).symm
        subst hp
        refine ⟨?_, ?_, ?_, ?_⟩
        · intro w hw
          rw [handleConnection_used]
          rcases handleConnection_admitted
              { s with used := ws.id :: s.used, openIds := ws.id :: s.openIds } ws
            with ha | ha
          · rw [ha] at hw
            exact List.mem_cons_of_mem _ (h1 w hw)
          · rw [ha] at hw
            rcases List.mem_cons.mp hw with h | h
            · rw [h]; exact List.mem_cons_self _ _
            · exact List.mem_cons_of_mem _ (h1 w h)
        · intro h hh
          rw [handleConnection_hostWs] at hh
          rw [handleConnection_used]
          exact List.mem_cons_of_mem _ (h2 h hh)
        · intro q hq
          rw [handleConnection_used]
          rcases handleConnection_clients_sub
              { s with used := ws.id :: s.used, openIds := ws.id :: s.openIds } ws q hq
            with h | h
          · rw [h]; exact List.mem_cons_self _ _
          · rcases List.mem_map.mp h with ⟨r, hr, hrq⟩
            rw [← hrq]
            exact List.mem_cons_of_mem _ (h3 r hr)
        · intro ha
          rw [handleConnection_active] at ha
          rw [handleConnection_hostWs]
          exact h4 ha
  | msg ws now m =>
    simp only [step] at hs
    split at hs
    · simp at hs
    · split at hs
      · rename_i hcond
        obtain ⟨hadm, _hopen, _hdp⟩ := hcond
        have hp := (Option.some.inj hs).symm
        subst hp
        refine ⟨?_, ?_, ?_, ?_⟩
        · intro w hw
          rw [handleMessage_admitted] at hw
          rw [handleMessage_used]
          exact h1 w hw
        · rw [handleMessage_used]
          exact handleMessage_hostUsed s ws now m (h1 ws hadm) h2
        · intro q hq
          rw [handleMessage_clients] at hq
          rw [handleMessage_used]
          exact h3 q hq
        · exact handleMessage_active_inv s ws now m h4
      · simp at hs
  | closeEv ws now =>
    simp only [step] at hs
    split at hs
    · simp at hs
    · split at hs
      · have hp := (Option.some.inj hs).symm
        subst hp
        refine ⟨?_, ?_, ?_, ?_⟩
        · intro w hw
          rw [handleDisconnect_admitted] at hw
          rw [handleDisconnect_used]
          exact h1 w hw
        · intro h hh
          rw [handleDisconnect_hostWs] at hh
          rw [handleDisconnect_used]
          split at hh
          · simp at hh
          · exact h2 h hh
        · intro q hq
          rw [handleDisconnect_clients] at hq
          rw [handleDisconnect_used]
          unfold mapDelete at hq
          exact h3 q ((List.mem_filter.mp hq).1)
        · intro ha
          rw [handleDisconnect_active] at ha
          rw [handleDisconnect_hostWs]
          split at ha
          · simp at ha
          · rename_i hne
            rw [if_neg hne]
            exact h4 ha
      · simp at hs
  | timerFire n =>
    simp only [step] at hs
    split at hs
    · simp at hs
    · split at hs
      · have hp := (Option.some.inj hs).symm
        subst hp
        exact ⟨h1, h2, h3, fun ha => h4 ha⟩
      · simp at hs

theorem inv_reachable {s : CoordState} (h : Reachable s) : InvGood s := by
  induction h with
  | init => refine ⟨?_, ?_, ?_, ?_⟩ <;> simp [initState, InvGood]
  | next _ hs ih => exact inv_step ih hs

/-! ### Concrete fixtures used by counterexamples and witnesses -/

/-- A lecturer identity (email classified as privileged). -/
def hostUser : User :=
  { uid := "h1", name := "Host", email := "host@um.edu.my", picture := "p" }

/-- A student identity. -/
def userA : User :=
  { uid := "a1", name := "Alice", email := "alice@student.edu", picture := "p" }

/-- A second student identity. -/
def userB : User :=
  { uid := "b1", name := "Bob", email := "bob@student.edu", picture := "p" }

/-- The host's first connection. -/
def wsH : CWs := { id := 0, user := hostUser }

/-- Alice's connection. -/
def wsA : CWs := { id := 1, user := userA }

/-- Bob's connection. -/
def wsB : CWs := { id := 2, user := userB }

/-- Run a trace from the initial state, defaulting to the initial state (all the
traces below are total, witnessed by the accompanying `run … = some …` proofs). -/
def runD (evs : List Ev) : CoordState := (run initState evs).getD initState

/-- Host registers, Alice is granted the floor, Bob queues, then the host grants
the floor to Bob by `admin-grant-floor`. -/
def traceC1 : List Ev :=
  [Ev.connect wsH, Ev.msg wsH 1 ClientMsg.registerAsHost,
   Ev.connect wsA, Ev.msg wsA 2 ClientMsg.requestToSpeak,
   Ev.connect wsB, Ev.msg wsB 3 ClientMsg.requestToSpeak,
   Ev.msg wsH 4 (ClientMsg.adminGrantFloor "b1")]

/-- The state after `traceC1`. -/
def exC1 : CoordState := runD traceC1

/-! ### Claim C1 -/

/-- C1 (counterexample): the disjointness invariant between Speaker Slot and
Request Queue is violated in a reachable state.  After host `h1` registers,
Alice is granted the floor, Bob queues, and the host issues
`admin-grant-floor{uid:"b1"}`, Bob holds the Speaker Slot while still being an
element of the Request Queue: the `admin-grant-floor` handler sets the speaker
but, unlike `grantMic`, never removes the target from `requestQueue`. -/
theorem adminGrant_breaks_disjointness :
    Reachable exC1 ∧ exC1.speaker = some wsB ∧ wsB ∈ exC1.requestQueue :=
  ⟨reachable_of_run Reachable.init (rfl : run initState traceC1 = some exC1),
   by decide, by decide⟩

/-- C1 (amended): the `grantMic` grant path (used by `request-to-speak` when the
floor is idle) does remove the grantee from the Request Queue, but the host-only
`admin-grant-floor` path sets the Speaker Slot and leaves the Request Queue
completely unchanged, so the target is NOT removed from the queue and the
disjointness invariant does not survive admin grants to queued connections. -/
theorem grant_paths_queue_removal :
    (∀ (s : CoordState) (ws : CWs),
      (grantMic s ws).1.speaker = some ws ∧ ws ∉ (grantMic s ws).1.requestQueue) ∧
    (∀ (s : CoordState) (ws : CWs) (now : Nat) (uid : String)
        (p : CoordState × List Eff) (t : CWs),
      step s (Ev.msg ws now (ClientMsg.adminGrantFloor uid)) = some p →
      s.hostWs = some ws → findClientByUid s uid = some t →
      p.1.speaker = some t ∧ p.1.requestQueue = s.requestQueue) := by
  constructor
  · intro s ws
    constructor
    · simp only [grantMic]
      split <;> rfl
    · simp only [grantMic]
      split
      · simp [List.mem_filter]
      · rename_i hmem
        exact hmem
  · intro s ws now uid p t hs hhost hfind
    simp only [step] at hs
    split at hs
    · simp at hs
    · split at hs
      · simp only [handleMessage] at hs
        rw [if_pos hhost] at hs
        simp only [hfind] at hs
        have hp := (Option.some.inj hs).symm
        subst hp
        exact ⟨rfl, rfl⟩
      · simp at hs

/-- The state just before the admin grant of `traceC1` (host registered, Alice
speaking, Bob queued). -/
def exQ : CoordState :=
  runD [Ev.connect wsH, Ev.msg wsH 1 ClientMsg.registerAsHost,
        Ev.connect wsA, Ev.msg wsA 2 ClientMsg.requestToSpeak,
        Ev.connect wsB, Ev.msg wsB 3 ClientMsg.requestToSpeak]

/-- Result of the admin grant processed from `exQ`. -/
def pC1g : CoordState × List Eff :=
  (step exQ (Ev.msg wsH 4 (ClientMsg.adminGrantFloor "b1"))).getD (initState, [])

/-- Witness for `grant_paths_queue_removal` at concrete inputs. -/
theorem grant_paths_queue_removal_witness :
    ((grantMic initState wsA).1.speaker = some wsA ∧
      wsA ∉ (grantMic initState wsA).1.requestQueue) ∧
    (step exQ (Ev.msg wsH 4 (ClientMsg.adminGrantFloor "b1")) = some pC1g ∧
      exQ.hostWs = some wsH ∧ findClientByUid exQ "b1" = some wsB ∧
      pC1g.1.speaker = some wsB ∧ pC1g.1.requestQueue = exQ.requestQueue) :=
  ⟨grant_paths_queue_removal.1 initState wsA,
   ⟨rfl, rfl, rfl,
    grant_paths_queue_removal.2 exQ wsH 4 "b1" pC1g wsB rfl rfl rfl⟩⟩

/-! ### Claim C2 -/

/-- The state with only the host connection admitted and the session never
activated. -/
def exC2 : CoordState := runD [Ev.connect wsH]

/-- C2 (counterexample): processing `request-to-speak` while the session is
inactive does NOT send an error reply: the dispatcher returns before doing
anything, so the effect list of the step is empty (in particular it contains no
`system-error` send), while the claim demands an error reply to the sender.
The state is indeed unchanged. -/
theorem inactive_request_no_error_reply :
    Reachable exC2 ∧ exC2.isSessionActive = false ∧
    step exC2 (Ev.msg wsH 3 ClientMsg.requestToSpeak) = some (exC2, []) :=
  ⟨reachable_of_run Reachable.init (rfl : run initState [Ev.connect wsH] = some exC2),
   by decide, by decide⟩

/-- C2 (amended): processing `request-to-speak` while the session is inactive is
a complete silent no-op: the coordinator state is unchanged and no reply, no
broadcast and no stats notification is emitted (the claimed error reply does not
exist). -/
theorem inactive_request_noop (s : CoordState) (ws : CWs) (now : Nat)
    (p : CoordState × List Eff)
    (hs : step s (Ev.msg ws now ClientMsg.requestToSpeak) = some p)
    (hina : s.isSessionActive = false) :
    p.1 = s ∧ p.2 = [] := by
  simp only [step] at hs
  split at hs
  · simp at hs
  · split at hs
    · simp only [handleMessage, hina] at hs
      have hp := (Option.some.inj hs).symm
      subst hp
      exact ⟨rfl, rfl⟩
    · simp at hs

/-- Result of the inactive request processed from `exC2`. -/
def pC2 : CoordState × List Eff :=
  (step exC2 (Ev.msg wsH 3 ClientMsg.requestToSpeak)).getD (initState, [])

/-- Witness for `inactive_request_noop` at concrete inputs. -/
theorem inactive_request_noop_witness :
    exC2.isSessionActive = false ∧ pC2.1 = exC2 ∧ pC2.2 = [] :=
  ⟨rfl, inactive_request_noop exC2 wsH 3 pC2 rfl rfl⟩

/-! ### Claim C3 -/

/-- The state after the host kicks queued Bob (`admin-kick-user{uid:"b1"}`) from
`exQ`: Bob's uid is banned but his connection is still registered and queued. -/
def traceC3 : List Ev :=
  [Ev.connect wsH, Ev.msg wsH 1 ClientMsg.registerAsHost,
   Ev.connect wsA, Ev.msg wsA 2 ClientMsg.requestToSpeak,
   Ev.connect wsB, Ev.msg wsB 3 ClientMsg.requestToSpeak,
   Ev.msg wsH 4 (ClientMsg.adminKickUser "b1")]

/-- The state after `traceC3`. -/
def exC3 : CoordState := runD traceC3

/-- C3 (counterexample): a reachable state in which a banned uid is still an
element of the Request Queue and still bound in the Registry.  `handleAdminKick`
adds the target to the ban map and closes its socket but does not remove it from
`requestQueue` or `clients`; cleanup only happens when the close event is later
processed, so right after the kick the claimed invariant is violated. -/
theorem kick_leaves_banned_in_queue :
    Reachable exC3 ∧ (mapLookup exC3.bannedUids "b1").isSome = true ∧
    wsB ∈ exC3.requestQueue ∧ wsB ∈ exC3.clients.map Prod.fst :=
  ⟨reachable_of_run Reachable.init (rfl : run initState traceC3 = some exC3),
   by decide, by decide, by decide⟩

/-- C3 (amended): banned uids are rejected at admission before any state change
(only a "kicked" error notice is sent and the socket is closed), so a banned uid
can never (re-)enter the Registry through `admit`; but `admin-kick-user` itself
only bans and closes the target: it leaves the Request Queue and the Registry
binding of the freshly banned uid untouched until the target's close event is
processed, so the banned uid transiently remains queued and registered. -/
theorem ban_admission_kick_cleanup :
    (∀ (s : CoordState) (ws : CWs) (p : CoordState × List Eff),
      step s (Ev.connect ws) = some p →
      (mapLookup s.bannedUids ws.user.uid).isSome = true →
      p.1.clients = s.clients ∧ p.1.requestQueue = s.requestQueue ∧
      p.1.speaker = s.speaker ∧ p.1.bannedUids = s.bannedUids ∧
      p.1.hostWs = s.hostWs ∧ p.1.openIds = s.openIds ∧
      p.2 = [Eff.send ws.id
        (SrvMsg.sysError "You have been kicked from this session.")]) ∧
    (∀ (s : CoordState) (h : CWs) (now : Nat) (uid : String) (t : CWs)
        (p : CoordState × List Eff),
      step s (Ev.msg h now (ClientMsg.adminKickUser uid)) = some p →
      s.hostWs = some h → findClientByUid s uid = some t →
      mapLookup p.1.bannedUids uid = some t.user ∧
      p.1.requestQueue = s.requestQueue ∧ p.1.clients = s.clients) := by
  constructor
  · intro s ws p hs hban
    simp only [step] at hs
    split at hs
    · simp at hs
    · split at hs
      · simp at hs
      · simp only [handleConnection] at hs
        split at hs
        · have hp := (Option.some.inj hs).symm
          subst hp
          refine ⟨rfl, rfl, rfl, rfl, rfl, List.erase_cons_head _ _, ?_⟩
          simp [sendE]
        · rename_i hc
          exact absurd hban (by simpa using hc)
  · intro s h now uid t p hs hhost hfind
    simp only [step] at hs
    split at hs
    · simp at hs
    · split at hs
      · simp only [handleMessage] at hs
        rw [if_pos hhost] at hs
        simp only [handleAdminKick, hfind] at hs
        have hp := (Option.some.inj hs).symm
        subst hp
        refine ⟨?_, ?_, ?_⟩
        · split <;> exact mapLookup_mapSet_self _ _ _
        · split <;> rfl
        · split <;> rfl
      · simp at hs

/-- A second connection attempt by the (banned) Bob. -/
def wsB2 : CWs := { id := 3, user := userB }

/-- Result of Bob's re-admission attempt from `exC3`. -/
def pC3a : CoordState × List Eff :=
  (step exC3 (Ev.connect wsB2)).getD (initState, [])

/-- Result of the kick processed from `exQ`. -/
def pC3b : CoordState × List Eff :=
  (step exQ (Ev.msg wsH 4 (ClientMsg.adminKickUser "b1"))).getD (initState, [])

/-- Witness for `ban_admission_kick_cleanup` at concrete inputs. -/
theorem ban_admission_kick_cleanup_witness :
    (step exC3 (Ev.connect wsB2) = some pC3a ∧
      (mapLookup exC3.bannedUids "b1").isSome = true ∧
      pC3a.1.clients = exC3.clients ∧ pC3a.1.requestQueue = exC3.requestQueue ∧
      pC3a.2 = [Eff.send 3
        (SrvMsg.sysError "You have been kicked from this session.")]) ∧
    (step exQ (Ev.msg wsH 4 (ClientMsg.adminKickUser "b1")) = some pC3b ∧
      mapLookup pC3b.1.bannedUids "b1" = some userB ∧
      pC3b.1.requestQueue = exQ.requestQueue ∧ pC3b.1.clients = exQ.clients) := by
  refine ⟨⟨rfl, rfl, ?_, ?_, ?_⟩, ⟨rfl, ?_, ?_, ?_⟩⟩
  · exact (ban_admission_kick_cleanup.1 exC3 wsB2 pC3a rfl rfl).1
  · exact (ban_admission_kick_cleanup.1 exC3 wsB2 pC3a rfl rfl).2.1
  · exact (ban_admission_kick_cleanup.1 exC3 wsB2 pC3a rfl rfl).2.2.2.2.2.2
  · exact (ban_admission_kick_cleanup.2 exQ wsH 4 "b1" wsB pC3b rfl rfl rfl).1
  · exact (ban_admission_kick_cleanup.2 exQ wsH 4 "b1" wsB pC3b rfl rfl rfl).2.1
  · exact (ban_admission_kick_cleanup.2 exQ wsH 4 "b1" wsB pC3b rfl rfl rfl).2.2

/-! ### Claim C4 -/

/-- Is this event a `register-as-host` message? -/
def isRegisterEv : Ev → Bool
  | Ev.msg _ _ ClientMsg.registerAsHost => true
  | _ => false

/-- Is this event the firing of the shutdown grace timer? -/
def isFireEv : Ev → Bool
  | Ev.timerFire _ => true
  | _ => false

theorem step_preserves_armed {s : CoordState} {e : Ev} {p : CoordState × List Eff}
    (hs : step s e = some p) (hreg : isRegisterEv e = false)
    (hfire : isFireEv e = false)
    (hp : s.shutdownPending = true) (ht : s.terminated = false) :
    p.1.shutdownPending = true ∧ p.1.terminated = false := by
  cases e with
  | connect ws =>
    simp only [step] at hs
    split at hs
    · simp at hs
    · split at hs
      · simp at hs
      · have h2 := (Option.some.inj hs).symm
        subst h2
        rw [handleConnection_pending, handleConnection_terminated]
        exact ⟨hp, ht⟩
  | msg ws now m =>
    have hm : m ≠ ClientMsg.registerAsHost := by
      intro h
      subst h
      simp [isRegisterEv] at hreg
    simp only [step] at hs
    split at hs
    · simp at hs
    · split at hs
      · have h2 := (Option.some.inj hs).symm
        subst h2
        rw [handleMessage_pending _ _ _ _ hm, handleMessage_terminated]
        exact ⟨hp, ht⟩
      · simp at hs
  | closeEv ws now =>
    simp only [step] at hs
    split at hs
    · simp at hs
    · split at hs
      · have h2 := (Option.some.inj hs).symm
        subst h2
        rw [handleDisconnect_pending, handleDisconnect_terminated]
        refine ⟨?_, ht⟩
        split
        · rfl
        · exact hp
      · simp at hs
  | timerFire n => simp [isFireEv] at hfire

/-- C4: shutdown grace protocol.  From any armed state (`shutdownPending` and not
terminated): (1) processing a `register-as-host` message cancels the pending
timer, the process has not terminated, and the timer callback can no longer
fire; (2) along any run in which neither a host registration nor the timer
expiry is processed, the timer stays armed and the process stays alive, and
whenever the grace period then elapses (the timer fires) the process terminates.
Together these capture: the process terminates if and only if no host
registration is processed before the grace period elapses. -/
theorem shutdown_grace_protocol (s : CoordState)
    (hp : s.shutdownPending = true) (ht : s.terminated = false) :
    (∀ (ws : CWs) (now : Nat) (p : CoordState × List Eff),
        step s (Ev.msg ws now ClientMsg.registerAsHost) = some p →
        p.1.shutdownPending = false ∧ p.1.terminated = false ∧
        (∀ n, step p.1 (Ev.timerFire n) = none)) ∧
    (∀ (evs : List Ev) (s2 : CoordState),
        run s evs = some s2 →
        evs.all (fun e => !isRegisterEv e && !isFireEv e) = true →
        s2.shutdownPending = true ∧ s2.terminated = false ∧
        (∀ n, ∃ p2 : CoordState × List Eff,
          step s2 (Ev.timerFire n) = some p2 ∧ p2.1.terminated = true)) := by
  constructor
  · intro ws now p hs
    have hpend : p.1.shutdownPending = false := by
      simp only [step] at hs
      split at hs
      · simp at hs
      · split at hs
        · have h2 := (Option.some.inj hs).symm
          subst h2
          simp [handleMessage]
        · simp at hs
    have hterm : p.1.terminated = false := by
      simp only [step] at hs
      split at hs
      · simp at hs
      · split at hs
        · have h2 := (Option.some.inj hs).symm
          subst h2
          rw [handleMessage_terminated]
          exact ht
        · simp at hs
    refine ⟨hpend, hterm, ?_⟩
    intro n
    simp [step, hterm, hpend]
  · intro evs
    induction evs generalizing s with
    | nil =>
      intro s2 hr _
      rw [run] at hr
      cases hr
      refine ⟨hp, ht, ?_⟩
      intro n
      refine ⟨({ s with shutdownPending := false, terminated := true }, []), ?_, rfl⟩
      simp [step, ht, hp]
    | cons e es ih =>
      intro s2 hr hall
      simp only [List.all_cons, Bool.and_eq_true, Bool.not_eq_true'] at hall
      obtain ⟨⟨hreg, hfire⟩, hall2⟩ := hall
      rw [run] at hr
      rcases hst : step s e with _ | p
      · rw [hst] at hr; simp at hr
      · rw [hst] at hr
        obtain ⟨hp2, ht2⟩ := step_preserves_armed hst hreg hfire hp ht
        exact ih p.1 hp2 ht2 s2 hr
          (by simp only [List.all_eq_true] at hall2 ⊢; exact hall2)

/-- The trace arming the shutdown timer: the host registers and disconnects. -/
def traceArmed : List Ev :=
  [Ev.connect wsH, Ev.msg wsH 1 ClientMsg.registerAsHost, Ev.closeEv wsH 2]

/-- The armed state reached by `traceArmed`. -/
def exArmed : CoordState := runD traceArmed

/-- Witness for `shutdown_grace_protocol` at the concrete armed state reached by
a host registration followed by the host's disconnect. -/
theorem shutdown_grace_protocol_witness :
    exArmed.shutdownPending = true ∧ exArmed.terminated = false ∧
    ((∀ (ws : CWs) (now : Nat) (p : CoordState × List Eff),
        step exArmed (Ev.msg ws now ClientMsg.registerAsHost) = some p →
        p.1.shutdownPending = false ∧ p.1.terminated = false ∧
        (∀ n, step p.1 (Ev.timerFire n) = none)) ∧
     (∀ (evs : List Ev) (s2 : CoordState),
        run exArmed evs = some s2 →
        evs.all (fun e => !isRegisterEv e && !isFireEv e) = true →
        s2.shutdownPending = true ∧ s2.terminated = false ∧
        (∀ n, ∃ p2 : CoordState × List Eff,
          step s2 (Ev.timerFire n) = some p2 ∧ p2.1.terminated = true))) :=
  ⟨rfl, rfl, shutdown_grace_protocol exArmed rfl rfl⟩

/-! ### Claim C5 -/

theorem find?_openFresh (l : List (CWs × String)) (n : Nat) (ops : List Nat)
    (uid : String) (hfresh : ∀ q ∈ l, q.1.id ≠ n) :
    l.find? (fun q => decide (q.2 = uid) && decide (q.1.id ∈ n :: ops)) =
      l.find? (fun q => decide (q.2 = uid) && decide (q.1.id ∈ ops)) := by
  induction l with
  | nil => rfl
  | cons q rest ih =>
    have hq : q.1.id ≠ n := hfresh q (List.mem_cons_self q rest)
    have hpred : (decide (q.2 = uid) && decide (q.1.id ∈ n :: ops)) =
        (decide (q.2 = uid) && decide (q.1.id ∈ ops)) := by
      have hiff : (q.1.id ∈ n :: ops) ↔ (q.1.id ∈ ops) := by
        simp [List.mem_cons, hq]
      rw [decide_eq_decide.mpr hiff]
    by_cases hb : (decide (q.2 = uid) && decide (q.1.id ∈ ops)) = true
    · rw [List.find?_cons_of_pos rest (by rw [hpred]; exact hb),
        List.find?_cons_of_pos rest hb]
    · rw [List.find?_cons_of_neg rest (by rw [hpred]; exact hb),
        List.find?_cons_of_neg rest hb]
      exact ih (fun r hr => hfresh r (List.mem_cons_of_mem q hr))

theorem findClientByUid_fresh (s : CoordState) (n : Nat) (uid : String)
    (hfresh : ∀ q ∈ s.clients, q.1.id ≠ n) :
    findClientByUid
        { s with used := n :: s.used, openIds := n :: s.openIds } uid =
      findClientByUid s uid := by
  show (s.clients.find?
      (fun q => decide (q.2 = uid) && decide (q.1.id ∈ n :: s.openIds))).map Prod.fst =
    (s.clients.find?
      (fun q => decide (q.2 = uid) && decide (q.1.id ∈ s.openIds))).map Prod.fst
  exact congrArg (Option.map Prod.fst) (find?_openFresh s.clients n s.openIds uid hfresh)

/-- C5 (amended): admitting a new connection for a uid that already has a live
connection closes the old connection and deletes it from the Registry, but it
does NOT clear the Speaker Slot or the Request Queue (those are only cleaned up
when the old connection's close event is later processed), and consequently the
initial snapshot sent to the new connection reports the old connection's user as
the current speaker whenever the old connection was speaking. -/
theorem dup_admission_cleanup (s : CoordState) (ws oldC : CWs)
    (p : CoordState × List Eff)
    (hreach : Reachable s)
    (hs : step s (Ev.connect ws) = some p)
    (hban : mapLookup s.bannedUids ws.user.uid = none)
    (hfind : findClientByUid s ws.user.uid = some oldC) :
    p.1.speaker = s.speaker ∧ p.1.requestQueue = s.requestQueue ∧
    (oldC ∉ p.1.clients.map Prod.fst ∧
     (s.speaker = some oldC → ws ∈ p.1.clients.map Prod.fst →
       Eff.send ws.id (SrvMsg.speakerUpdate (some oldC.user)) ∈ p.2)) := by
  obtain ⟨hinv1, hinv2, hinv3, hinv4⟩ := inv_reachable hreach
  simp only [step] at hs
  split at hs
  · simp at hs
  · split at hs
    · simp at hs
    · rename_i hfreshid
      have hfresh : ∀ q ∈ s.clients, q.1.id ≠ ws.id := by
        intro q hq hqe
        exact hfreshid (hqe ▸ hinv3 q hq)
      have hfind0 : findClientByUid
          { s with used := ws.id :: s.used, openIds := ws.id :: s.openIds }
          ws.user.uid = some oldC := by
        rw [findClientByUid_fresh s ws.id ws.user.uid hfresh]
        exact hfind
      have holdmem : oldC ∈ s.clients.map Prod.fst := findClientByUid_mem hfind
      have holdused : oldC.id ∈ s.used := by
        rcases List.mem_map.mp holdmem with ⟨r, hr, hrq⟩
        rw [← hrq]
        exact hinv3 r hr
      have hne2 : ws.id ≠ oldC.id := fun h => hfreshid (h ▸ holdused)
      have hp := (Option.some.inj hs).symm
      subst hp
      refine ⟨handleConnection_speaker _ _, handleConnection_requestQueue _ _, ?_⟩
      simp only [handleConnection, hfind0]
      split
      · rename_i hb
        exact absurd hb (by simp [hban])
      · split
        · constructor
          · exact not_mem_keys_mapDelete s.clients oldC
          · intro _ hwsmem
            exfalso
            have h2 : ws ∈ s.clients.map Prod.fst := mem_keys_mapDelete hwsmem
            rcases List.mem_map.mp h2 with ⟨r, hr, hrq⟩
            exact hfreshid (hrq ▸ hinv3 r hr)
        · constructor
          · intro hmem
            rcases mem_keys_mapSet hmem with h | h
            · exact hfreshid (h ▸ holdused)
            · exact absurd h (not_mem_keys_mapDelete s.clients oldC)
          · intro hspk _
            have hop : ws.id ∈ ((ws.id :: s.openIds).erase oldC.id) :=
              (List.mem_erase_of_ne hne2).mpr (List.mem_cons_self _ _)
            simp [sendE, hop, hspk, List.mem_append]

/-- Host registered, Alice admitted and granted the floor. -/
def traceC5 : List Ev :=
  [Ev.connect wsH, Ev.msg wsH 1 ClientMsg.registerAsHost,
   Ev.connect wsA, Ev.msg wsA 2 ClientMsg.requestToSpeak]

/-- The state after `traceC5`. -/
def exC5 : CoordState := runD traceC5

/-- Alice's second (duplicate) connection. -/
def wsA2 : CWs := { id := 3, user := userA }

/-- Result of admitting the duplicate connection from `exC5`. -/
def pC5 : CoordState × List Eff :=
  (step exC5 (Ev.connect wsA2)).getD (initState, [])

/-- C5 (counterexample): while Alice's old connection holds the floor, admitting
a second connection for the same uid leaves the old connection in the Speaker
Slot (it is NOT treated as disconnected before the admission continues), and the
snapshot sent to the new connection reports the old connection's user as the
current speaker — contradicting the claim that the snapshot never reports the
old connection as speaker. -/
theorem dup_admission_stale_snapshot :
    Reachable exC5 ∧ exC5.speaker = some wsA ∧
    step exC5 (Ev.connect wsA2) = some pC5 ∧
    pC5.1.speaker = some wsA ∧ wsA2 ∈ pC5.1.clients.map Prod.fst ∧
    Eff.send 3 (SrvMsg.speakerUpdate (some userA)) ∈ pC5.2 :=
  ⟨reachable_of_run Reachable.init (rfl : run initState traceC5 = some exC5),
   by decide, rfl, by decide, by decide, by decide⟩

/-- Witness for `dup_admission_cleanup` at concrete inputs. -/
theorem dup_admission_cleanup_witness :
    mapLookup exC5.bannedUids "a1" = none ∧
    findClientByUid exC5 "a1" = some wsA ∧
    (pC5.1.speaker = exC5.speaker ∧ pC5.1.requestQueue = exC5.requestQueue ∧
     (wsA ∉ pC5.1.clients.map Prod.fst ∧
      (exC5.speaker = some wsA → wsA2 ∈ pC5.1.clients.map Prod.fst →
        Eff.send wsA2.id (SrvMsg.speakerUpdate (some wsA.user)) ∈ pC5.2))) :=
  ⟨rfl, rfl,
   dup_admission_cleanup exC5 wsA2 wsA pC5
     (reachable_of_run Reachable.init (rfl : run initState traceC5 = some exC5))
     rfl rfl rfl⟩

/-! ### Claim C6 -/

/-- Host registered, Alice admitted (nobody speaking). -/
def traceC6 : List Ev :=
  [Ev.connect wsH, Ev.msg wsH 1 ClientMsg.registerAsHost, Ev.connect wsA]

/-- The state after `traceC6`. -/
def exC6 : CoordState := runD traceC6

/-- Result of Alice (non-host) sending a targeted ICE candidate from `exC6`. -/
def pC6 : CoordState × List Eff :=
  (step exC6 (Ev.msg wsA 4 (ClientMsg.rtcIceMsg "cand" (some "nobody")))).getD
    (initState, [])

/-- C6 (counterexample): a `webrtc-ice-candidate` message carrying a target uid
from the non-host Alice is NOT ignored: the candidate falls through to the
student-to-host branch and is forwarded to the host (tagged with Alice's uid),
contradicting the claim that no forward is performed.  The state is unchanged. -/
theorem nonhost_targeted_candidate_forwarded :
    Reachable exC6 ∧ exC6.hostWs = some wsH ∧
    step exC6 (Ev.msg wsA 4 (ClientMsg.rtcIceMsg "cand" (some "nobody"))) =
      some pC6 ∧
    pC6.1 = exC6 ∧ Eff.send 0 (SrvMsg.rtcIce "cand" (some "a1")) ∈ pC6.2 :=
  ⟨reachable_of_run Reachable.init (rfl : run initState traceC6 = some exC6),
   by decide, rfl, by decide, by decide⟩

/-- C6 (amended): a `webrtc-ice-candidate` message carrying a target uid whose
sender is not the host does not change any coordinator state, but it is not
dropped: the target uid is disregarded and the candidate is relayed to the host
connection (when its socket is open), tagged with the sender's uid. -/
theorem nonhost_targeted_candidate_relay (s : CoordState) (ws h : CWs)
    (now : Nat) (cand tu : String) (p : CoordState × List Eff)
    (hs : step s (Ev.msg ws now (ClientMsg.rtcIceMsg cand (some tu))) = some p)
    (hhost : s.hostWs = some h) (hne : ws ≠ h) :
    p.1 = s ∧ p.2 = sendE s h (SrvMsg.rtcIce cand (some ws.user.uid)) := by
  have hnh : ¬(s.hostWs = some ws) := by
    rw [hhost]
    intro hc
    exact hne (Option.some.inj hc).symm
  simp only [step] at hs
  split at hs
  · simp at hs
  · split at hs
    · simp only [handleMessage] at hs
      rw [if_neg hnh, hhost] at hs
      have hp := (Option.some.inj hs).symm
      subst hp
      exact ⟨rfl, rfl⟩
    · simp at hs

/-- Witness for `nonhost_targeted_candidate_relay` at concrete inputs. -/
theorem nonhost_targeted_candidate_relay_witness :
    exC6.hostWs = some wsH ∧
    (pC6.1 = exC6 ∧
      pC6.2 = sendE exC6 wsH (SrvMsg.rtcIce "cand" (some wsA.user.uid))) :=
  ⟨rfl,
   nonhost_targeted_candidate_relay exC6 wsA wsH 4 "cand" "nobody" pC6 rfl rfl
     (by decide)⟩

/-! ### Claim C7 -/

/-- Does this effect send a request-queue snapshot to connection handle `n`? -/
def isQueueMsgTo (n : Nat) : Eff → Bool
  | Eff.send t (SrvMsg.requestQueueMsg _) => decide (t = n)
  | _ => false

theorem all_sendE (s : CoordState) (t : CWs) (m : SrvMsg) (pr : Eff → Bool)
    (h : pr (Eff.send t.id m) = true) : (sendE s t m).all pr = true := by
  unfold sendE
  split
  · simp [h]
  · rfl

theorem all_bpl (s : CoordState) (pr : Eff → Bool)
    (h : ∀ t ps, pr (Eff.send t (SrvMsg.participantList ps)) = true) :
    (broadcastParticipantList s).all pr = true := by
  unfold broadcastParticipantList
  split
  · rfl
  · exact all_sendE _ _ _ _ (h _ _)

theorem isQueueMsgTo_sendE {s : CoordState} {t : CWs} {m : SrvMsg} {n : Nat}
    {e : Eff} (he : e ∈ sendE s t m)
    (hm : ∀ q, m ≠ SrvMsg.requestQueueMsg q) : isQueueMsgTo n e = false := by
  unfold sendE at he
  split at he
  · have hee := List.mem_singleton.mp he
    subst hee
    cases m <;> first
      | rfl
      | exact absurd rfl (hm _)
  · simp at he

/-- C7 (amended): during admission the request-queue snapshot is resent only when
the admitted connection handle is the exact handle stored as host, which never
happens for a freshly accepted connection — so no admitted connection (in
particular no reconnecting host, who always arrives on a fresh handle) ever
receives a request-queue snapshot during admission.  A reconnecting host only
receives the queue snapshot after it sends `register-as-host`, whose handler
always sends the current request-queue snapshot to the registering connection. -/
theorem admission_queue_snapshot :
    (∀ (s : CoordState) (ws : CWs) (p : CoordState × List Eff),
      Reachable s → step s (Ev.connect ws) = some p →
      p.2.all (fun e => !isQueueMsgTo ws.id e) = true) ∧
    (∀ (s : CoordState) (ws : CWs) (now : Nat) (p : CoordState × List Eff),
      step s (Ev.msg ws now ClientMsg.registerAsHost) = some p →
      ∃ q, Eff.send ws.id (SrvMsg.requestQueueMsg q) ∈ p.2) := by
  constructor
  · intro s ws p hreach hs
    obtain ⟨hinv1, hinv2, hinv3, hinv4⟩ := inv_reachable hreach
    simp only [step] at hs
    split at hs
    · simp at hs
    · split at hs
      · simp at hs
      · rename_i hfreshid
        have hnw : ¬(s.hostWs = some ws) := fun hc => hfreshid (hinv2 ws hc)
        have hp := (Option.some.inj hs).symm
        subst hp
        rcases hfind : findClientByUid
            { s with used := ws.id :: s.used, openIds := ws.id :: s.openIds }
            ws.user.uid with _ | oldC
        all_goals
          simp only [handleConnection, hfind]
          split
          · exact all_sendE _ _ _ _ rfl
          · split
            · exact all_sendE _ _ _ _ rfl
            · rw [List.all_eq_true]
              intro e he
              have hf : isQueueMsgTo ws.id e = false := by
                simp only [List.mem_append, or_assoc] at he
                rcases he with h | h | h | h | h | h
                · exact isQueueMsgTo_sendE h (fun q => by simp)
                · exact isQueueMsgTo_sendE h (fun q => by simp)
                · exact isQueueMsgTo_sendE h (fun q => by simp)
                · unfold broadcastParticipantList at h
                  split at h
                  · simp at h
                  · exact isQueueMsgTo_sendE h (fun q => by simp)
                · simp at h
                · by_cases hl : isLecturerEmail ws.user.email = true
                  · simp [hl] at h
                  · simp [hl] at h
                    subst h
                    rfl
              rw [hf]
              rfl
  · intro s ws now p hs
    simp only [step] at hs
    split at hs
    · simp at hs
    · split at hs
      · rename_i hcond
        obtain ⟨hadm, hopen, hdp⟩ := hcond
        have hp := (Option.some.inj hs).symm
        subst hp
        refine ⟨s.requestQueue.map CWs.user, ?_⟩
        simp [handleMessage, broadcastRequestQueue, sendE, hopen, List.mem_append]
      · simp at hs

/-- The reconnecting host's fresh handle. -/
def wsH2 : CWs := { id := 1, user := hostUser }

/-- Host registered on its first connection. -/
def traceC7 : List Ev := [Ev.connect wsH, Ev.msg wsH 1 ClientMsg.registerAsHost]

/-- The state after `traceC7`. -/
def exC7 : CoordState := runD traceC7

/-- Result of admitting the host's fresh reconnection handle from `exC7`. -/
def pC7 : CoordState × List Eff :=
  (step exC7 (Ev.connect wsH2)).getD (initState, [])

/-- Result of the host re-sending `register-as-host` from `exC7`. -/
def pC7b : CoordState × List Eff :=
  (step exC7 (Ev.msg wsH 5 ClientMsg.registerAsHost)).getD (initState, [])

/-- C7 (counterexample): the host's uid reconnects on a fresh handle while it is
the current host; the admission completes (the new handle is registered), yet
none of the messages sent during admission is a request-queue snapshot to the
admitted connection — the `ws === this.hostWs` resend branch compares the fresh
handle with the stored (old) host handle and can never fire. -/
theorem reconnect_host_no_queue_snapshot :
    Reachable exC7 ∧ exC7.hostWs = some wsH ∧ wsH2.user = wsH.user ∧
    step exC7 (Ev.connect wsH2) = some pC7 ∧
    wsH2 ∈ pC7.1.clients.map Prod.fst ∧
    pC7.2.all (fun e => !isQueueMsgTo 1 e) = true :=
  ⟨reachable_of_run Reachable.init (rfl : run initState traceC7 = some exC7),
   by decide, by decide, rfl, by decide, by decide⟩

/-- Witness for `admission_queue_snapshot` at concrete inputs. -/
theorem admission_queue_snapshot_witness :
    pC7.2.all (fun e => !isQueueMsgTo wsH2.id e) = true ∧
    (∃ q, Eff.send wsH.id (SrvMsg.requestQueueMsg q) ∈ pC7b.2) :=
  ⟨admission_queue_snapshot.1 exC7 wsH2 pC7
     (reachable_of_run Reachable.init (rfl : run initState traceC7 = some exC7))
     rfl,
   admission_queue_snapshot.2 exC7 wsH 5 pC7b rfl⟩

/-! ### Claim C8 -/

/-- C8: after a release by the current speaker, after a host
`admin-release-floor`, and after a disconnect of the current speaker, the
Speaker Slot is null and the Cooldown Map entry for the prior speaker's uid is
set to the time of the event. -/
theorem release_cooldown :
    (∀ (s : CoordState) (ws : CWs) (now : Nat) (p : CoordState × List Eff),
      step s (Ev.msg ws now ClientMsg.releaseFloor) = some p →
      s.speaker = some ws →
      p.1.speaker = none ∧
        mapLookup p.1.lastSpeakTimeMap ws.user.uid = some now) ∧
    (∀ (s : CoordState) (h : CWs) (now : Nat) (p : CoordState × List Eff),
      step s (Ev.msg h now ClientMsg.adminReleaseFloor) = some p →
      s.hostWs = some h →
      p.1.speaker = none ∧
        (∀ sp, s.speaker = some sp →
          mapLookup p.1.lastSpeakTimeMap sp.user.uid = some now)) ∧
    (∀ (s : CoordState) (ws : CWs) (now : Nat) (p : CoordState × List Eff),
      step s (Ev.closeEv ws now) = some p →
      s.speaker = some ws →
      p.1.speaker = none ∧
        mapLookup p.1.lastSpeakTimeMap ws.user.uid = some now) := by
  refine ⟨?_, ?_, ?_⟩
  · intro s ws now p hs hspk
    simp only [step] at hs
    split at hs
    · simp at hs
    · split at hs
      · simp only [handleMessage, handleReleaseFloor] at hs
        rw [if_pos hspk] at hs
        have hp := (Option.some.inj hs).symm
        subst hp
        exact ⟨rfl, mapLookup_mapSet_self _ _ _⟩
      · simp at hs
  · intro s h now p hs hhost
    simp only [step] at hs
    split at hs
    · simp at hs
    · split at hs
      · simp only [handleMessage] at hs
        rw [if_pos hhost] at hs
        rcases hsp2 : s.speaker with _ | sp2
        · simp only [hsp2] at hs
          have hp := (Option.some.inj hs).symm
          subst hp
          refine ⟨rfl, ?_⟩
          intro sp hsp
          exact absurd hsp (by simp)
        · simp only [hsp2] at hs
          have hp := (Option.some.inj hs).symm
          subst hp
          refine ⟨rfl, ?_⟩
          intro sp hsp
          have he := Option.some.inj hsp
          subst he
          exact mapLookup_mapSet_self _ _ _
      · simp at hs
  · intro s ws now p hs hspk
    simp only [step] at hs
    split at hs
    · simp at hs
    · split at hs
      · have hp := (Option.some.inj hs).symm
        subst hp
        exact handleDisconnect_release _ ws now hspk
      · simp at hs

/-- Release by the speaking Alice from `exC5`. -/
def p8a : CoordState × List Eff :=
  (step exC5 (Ev.msg wsA 7 ClientMsg.releaseFloor)).getD (initState, [])

/-- Host `admin-release-floor` from `exC5`. -/
def p8b : CoordState × List Eff :=
  (step exC5 (Ev.msg wsH 8 ClientMsg.adminReleaseFloor)).getD (initState, [])

/-- Disconnect of the speaking Alice from `exC5`. -/
def p8c : CoordState × List Eff :=
  (step exC5 (Ev.closeEv wsA 9)).getD (initState, [])

/-- Witness for `release_cooldown` at concrete inputs. -/
theorem release_cooldown_witness :
    exC5.speaker = some wsA ∧ exC5.hostWs = some wsH ∧
    (p8a.1.speaker = none ∧ mapLookup p8a.1.lastSpeakTimeMap "a1" = some 7) ∧
    (p8b.1.speaker = none ∧ mapLookup p8b.1.lastSpeakTimeMap "a1" = some 8) ∧
    (p8c.1.speaker = none ∧ mapLookup p8c.1.lastSpeakTimeMap "a1" = some 9) :=
  ⟨rfl, rfl,
   release_cooldown.1 exC5 wsA 7 p8a rfl rfl,
   ⟨(release_cooldown.2.1 exC5 wsH 8 p8b rfl rfl).1,
    (release_cooldown.2.1 exC5 wsH 8 p8b rfl rfl).2 wsA rfl⟩,
   release_cooldown.2.2 exC5 wsA 9 p8c rfl rfl⟩

/-! ### Claim C9 -/

/-- Host registered, Alice granted the floor, then the host toggles the session
inactive while Alice still holds the Speaker Slot. -/
def traceC9 : List Ev :=
  [Ev.connect wsH, Ev.msg wsH 1 ClientMsg.registerAsHost,
   Ev.connect wsA, Ev.msg wsA 2 ClientMsg.requestToSpeak,
   Ev.msg wsH 5 (ClientMsg.adminToggleSession false)]

/-- The state after `traceC9`. -/
def exC9 : CoordState := runD traceC9

/-- C9 (counterexample): Alice holds the Speaker Slot but the session has been
toggled inactive; her further `request-to-speak` is dropped by the
inactive-session guard before the re-ack branch is reached: no grant
acknowledgement is resent and no speak-pulse is logged (the state is unchanged),
refuting the unconditional claim. -/
theorem held_request_inactive_dropped :
    Reachable exC9 ∧ exC9.speaker = some wsA ∧ exC9.isSessionActive = false ∧
    step exC9 (Ev.msg wsA 9 ClientMsg.requestToSpeak) = some (exC9, []) :=
  ⟨reachable_of_run Reachable.init (rfl : run initState traceC9 = some exC9),
   by decide, by decide, by decide⟩

/-- C9 (amended): while the session is ACTIVE, a further `request-to-speak` from
the connection holding the Speaker Slot mutates no coordinator state and its
only effects are the request stats log, the resent grant acknowledgement, and a
speak-pulse stats notification. -/
theorem held_request_idempotent (s : CoordState) (ws : CWs) (now : Nat)
    (p : CoordState × List Eff) (hreach : Reachable s)
    (hact : s.isSessionActive = true) (hspk : s.speaker = some ws)
    (hs : step s (Ev.msg ws now ClientMsg.requestToSpeak) = some p) :
    p.1 = s ∧
    p.2 = [Eff.statsLog "REQUEST_TO_SPEAK" ws.user.uid,
      Eff.send ws.id SrvMsg.speakGranted,
      Eff.statsLog "SPEAK_PULSE" ws.user.uid] := by
  have hhost := (inv_reachable hreach).2.2.2 hact
  simp only [step] at hs
  split at hs
  · simp at hs
  · split at hs
    · rename_i hcond
      obtain ⟨hadm, hopen, hdp⟩ := hcond
      simp only [handleMessage, hact, if_true, handleRequestToSpeak] at hs
      rcases hh : s.hostWs with _ | hw
      · rw [hh] at hhost
        simp at hhost
      · simp only [hh] at hs
        rw [if_neg (by rw [hspk]; simp)] at hs
        rw [if_pos hspk] at hs
        have hp := (Option.some.inj hs).symm
        subst hp
        refine ⟨rfl, ?_⟩
        simp [sendE, hopen]
    · simp at hs

/-- Alice's idempotent re-request from `exC5`. -/
def p9 : CoordState × List Eff :=
  (step exC5 (Ev.msg wsA 9 ClientMsg.requestToSpeak)).getD (initState, [])

/-- Witness for `held_request_idempotent` at concrete inputs. -/
theorem held_request_idempotent_witness :
    exC5.isSessionActive = true ∧ exC5.speaker = some wsA ∧
    (p9.1 = exC5 ∧
      p9.2 = [Eff.statsLog "REQUEST_TO_SPEAK" "a1",
        Eff.send 1 SrvMsg.speakGranted, Eff.statsLog "SPEAK_PULSE" "a1"]) :=
  ⟨rfl, rfl,
   held_request_idempotent exC5 wsA 9 p9
     (reachable_of_run Reachable.init (rfl : run initState traceC5 = some exC5))
     rfl rfl rfl⟩

/-! ### Claim C10 -/

/-- C10: processing `finished-speaking` never mutates coordinator state: the
post-state equals the pre-state (so Speaker Slot, Request Queue, Registry, Ban
Set, session flag and host binding are all unchanged), and the only effect is a
single fire-and-forget stats notification, emitted exactly when the sender is
the current speaker. -/
theorem finished_speaking_frame (s : CoordState) (ws : CWs) (now : Nat)
    (p : CoordState × List Eff)
    (hs : step s (Ev.msg ws now ClientMsg.finishedSpeaking) = some p) :
    p.1 = s ∧
    p.2 = (if s.speaker = some ws
           then [Eff.statsLog "SPEAK_FINISHED" ws.user.uid] else []) := by
  simp only [step] at hs
  split at hs
  · simp at hs
  · split at hs
    · simp only [handleMessage, handleFinishedSpeaking] at hs
      split at hs
      · rename_i hcc
        have hp := (Option.some.inj hs).symm
        subst hp
        exact ⟨rfl, (if_pos hcc).symm⟩
      · rename_i hcc
        have hp := (Option.some.inj hs).symm
        subst hp
        exact ⟨rfl, (if_neg hcc).symm⟩
    · simp at hs

/-- Alice's `finished-speaking` from `exC5` (she is the speaker). -/
def p10 : CoordState × List Eff :=
  (step exC5 (Ev.msg wsA 11 ClientMsg.finishedSpeaking)).getD (initState, [])

/-- Witness for `finished_speaking_frame` at concrete inputs. -/
theorem finished_speaking_frame_witness :
    p10.1 = exC5 ∧
    p10.2 = (if exC5.speaker = some wsA
             then [Eff.statsLog "SPEAK_FINISHED" wsA.user.uid] else []) :=
  finished_speaking_frame exC5 wsA 11 p10 rfl
